import Mathlib

/-!
Shallow embedding of the safe-map single-page application
(src/safe-map/src/App.jsx, both revisions) and proofs about its handlers.

The component state is a record; each event handler is embedded as a pure
function from the state at invocation time, together with the outcomes of its
outbound HTTP calls (`none` modelling a rejected promise), to the final state
and an ordered trace of effects (network calls, map pans, alerts, console
logs, transcript updates).
-/

namespace SafeMap

/-- A chat transcript entry (`{ role, content }`). -/
structure ChatMsg where
  role : String
  content : String
deriving DecidableEq

/-- A news item of the classification response. -/
structure NewsItem where
  title : String
  link : String
  /-- `none` models a missing/undefined `category` field. -/
  category : Option String
  /-- `none` models a missing/undefined `threat` field. -/
  threat : Option String
deriving DecidableEq

/-- One feature of the geocoding response; `center` is the `[lng, lat]` pair. -/
structure GeoFeature where
  center : Int × Int
deriving DecidableEq

/-- The geocoding response body; `features` may be absent. -/
structure GeoResponse where
  features : Option (List GeoFeature)
deriving DecidableEq

/-- The JSON body `handleSendChat` posts to the generative endpoint. -/
structure GenRequest where
  model : String
  prompt : String
  stream : Bool
deriving DecidableEq

/-- The component state (the `useState` hooks of the second revision of `App`). -/
structure AppState where
  searchQuery : String
  newsData : List NewsItem
  summary : List (String × Nat)
  loading : Bool
  chatOpen : Bool
  chatTitle : String
  chatMessages : List ChatMsg
  chatInput : String
  chatLoading : Bool
deriving DecidableEq

/-- Observable effects of a handler run, in program order. -/
inductive Ev where
  | geoRequest (query : String)
  | geoDone
  | geoFail
  | clsRequest (location : String) (days : Nat)
  | clsDone
  | clsFail
  | genRequest (req : GenRequest)
  | genDone
  | genFail
  | flyTo (lng lat : Int) (zoom : Nat)
  | alertBox (message : String)
  | consoleError
  | appendUser (m : ChatMsg)
  | appendAi (m : ChatMsg)
deriving DecidableEq

/-- JS `String.prototype.trim` on the character list: drop leading and
trailing whitespace. -/
def jsTrim (l : List Char) : List Char :=
  ((l.dropWhile Char.isWhitespace).reverse.dropWhile Char.isWhitespace).reverse

/-- JS `s.trim()`. -/
def trimString (s : String) : String :=
  String.mk (jsTrim s.data)

/-- JS `item.category || "unknown"`: the `||` falls through on a missing or
falsy (empty-string) category. -/
def catOf (item : NewsItem) : String :=
  match item.category with
  | none => "unknown"
  | some c => if c = "" then "unknown" else c

/-- One step `countByCategory[cat] = (countByCategory[cat] || 0) + 1` on a JS
object: bump an existing key in place, or append the new key at the end. -/
def incr : List (String × Nat) → String → List (String × Nat)
  | [], c => [(c, 1)]
  | (k, v) :: rest, c => if k = c then (k, v + 1) :: rest else (k, v) :: incr rest c

/-- The `filtered.forEach` loop that rebuilds `countByCategory` from scratch. -/
def buildSummary (items : List NewsItem) : List (String × Nat) :=
  items.foldl (fun acc item => incr acc (catOf item)) []

/-- Key lookup in the summary object, `0` for an absent key. -/
def lookupCount : List (String × Nat) → String → Nat
  | [], _ => 0
  | (k, v) :: rest, c => if k = c then v else lookupCount rest c

/-- Total of all counts held by the summary object. -/
def sumCounts (summary : List (String × Nat)) : Nat :=
  (summary.map Prod.snd).sum

/-- The retention test `item.threat !== "NaN"` of `handleAnalyze`. -/
def keepItem (item : NewsItem) : Bool :=
  item.threat != some "NaN"

/-- Handler `handleAnalyze`. `s` is the state when the handler runs, `geo` the outcome
of the geocoding fetch (`none`: the fetch or its `.json()` rejected — nothing
catches that), `cls` the outcome of the classification call (`none`: anything
inside the `try` block threw). Returns the final state and the effect trace. -/
def handleAnalyze (s : AppState) (geo : Option GeoResponse)
    (cls : Option (List NewsItem)) : AppState × List Ev :=
  let location := trimString s.searchQuery
  if location = "" then (s, [])
  else
    let s1 := { s with loading := true, newsData := [], summary := [] }
    match geo with
    | none => (s1, [Ev.geoRequest location, Ev.geoFail])
    | some g =>
      let panEvs :=
        match g.features with
        | some (f :: _) => [Ev.flyTo f.center.1 f.center.2 10]
        | _ => []
      let evs0 := Ev.geoRequest location :: Ev.geoDone :: panEvs
      match cls with
      | none =>
        ({ s1 with loading := false },
         evs0 ++ [Ev.clsRequest location 2, Ev.clsFail, Ev.consoleError])
      | some news =>
        let filtered := news.filter keepItem
        ({ s1 with newsData := filtered, summary := buildSummary filtered,
                   loading := false },
         evs0 ++ [Ev.clsRequest location 2, Ev.clsDone])

/-- Handler `handleSearch` of the first revision: keydown handler of the search box.
`key` is `e.key`; `geo` the geocoding fetch outcome (`none`: rejected). -/
def handleSearch (key : String) (searchQuery : String)
    (geo : Option GeoResponse) : List Ev :=
  if key = "Enter" ∧ trimString searchQuery ≠ "" then
    match geo with
    | none => [Ev.geoRequest searchQuery, Ev.geoFail]
    | some g =>
      Ev.geoRequest searchQuery :: Ev.geoDone ::
        (match g.features with
         | some (f :: _) => [Ev.flyTo f.center.1 f.center.2 10]
         | _ => [Ev.alertBox "Location not found."])
  else []

/-- The line `m.role === "user" ? "User" : "AI"` followed by a colon and
`m.content`. -/
def roleLine (m : ChatMsg) : String :=
  (if m.role = "user" then "User" else "AI") ++ ": " ++ m.content

/-- The prompt `newMessages.map(...).join(newline) + newline + AI:`. -/
def mkPrompt (ms : List ChatMsg) : String :=
  String.intercalate "\n" (ms.map roleLine) ++ "\nAI:"

/-- The user message `handleSendChat` appends. -/
def userMsgOf (s : AppState) : ChatMsg :=
  { role := "user", content := trimString s.chatInput }

/-- The request body `handleSendChat` posts. -/
def genReqOf (s : AppState) : GenRequest :=
  { model := "deepseek-r1:8b"
    prompt := mkPrompt (s.chatMessages ++ [userMsgOf s])
    stream := false }

/-- Handler `handleSendChat`. `gen` is the generative call outcome (`none`: the fetch,
`res.json()` or the `data.response` access threw — nothing catches it;
`some r`: `data.response` is the string `r`). -/
def handleSendChat (s : AppState) (gen : Option String) : AppState × List Ev :=
  if trimString s.chatInput = "" then (s, [])
  else
    let userMsg := userMsgOf s
    let newMessages := s.chatMessages ++ [userMsg]
    let s1 := { s with chatMessages := newMessages, chatInput := "",
                       chatLoading := true }
    match gen with
    | none => (s1, [Ev.appendUser userMsg, Ev.genRequest (genReqOf s), Ev.genFail])
    | some r =>
      let aiMsg : ChatMsg := { role := "ai", content := trimString r }
      ({ s1 with chatMessages := newMessages ++ [aiMsg], chatLoading := false },
       [Ev.appendUser userMsg, Ev.genRequest (genReqOf s), Ev.genDone,
        Ev.appendAi aiMsg])

/-- The rank `order[threat] ?? 99` with `order = { HIGH: 0, MEDIUM: 1, LOW: 2 }`. -/
def threatOrder : Option String → Nat
  | some "HIGH" => 0
  | some "MEDIUM" => 1
  | some "LOW" => 2
  | _ => 99

/-- The list `newsData.slice().sort((a, b) => (order[a.threat] ?? 99) - (order[b.threat] ?? 99))`:
the news panel sorts a copy of `newsData`; `Array.prototype.sort` is a stable
comparator sort, modelled by the stable `List.mergeSort`. -/
def renderNewsOrder (s : AppState) : List NewsItem :=
  s.newsData.mergeSort fun a b => decide (threatOrder a.threat ≤ threatOrder b.threat)

/-- The three kinds of outbound HTTP call. -/
inductive CallKind where
  | geocode
  | classify
  | generate
deriving DecidableEq

/-- Network view of an effect: a call starting or finishing (a rejected call
has also finished). -/
inductive NetEv where
  | callStart (k : CallKind)
  | callEnd (k : CallKind)
deriving DecidableEq

/-- Project an effect onto the network view. -/
def evNet : Ev → Option NetEv
  | .geoRequest _ => some (.callStart .geocode)
  | .geoDone => some (.callEnd .geocode)
  | .geoFail => some (.callEnd .geocode)
  | .clsRequest _ _ => some (.callStart .classify)
  | .clsDone => some (.callEnd .classify)
  | .clsFail => some (.callEnd .classify)
  | .genRequest _ => some (.callStart .generate)
  | .genDone => some (.callEnd .generate)
  | .genFail => some (.callEnd .generate)
  | _ => none

/-- The network sub-trace of an effect trace. -/
def netEvs (tr : List Ev) : List NetEv :=
  tr.filterMap evNet

/-- The network sub-trace is a sequence of matching start/finish pairs:
every call finishes before the next one starts. -/
def sequentialB : List NetEv → Bool
  | [] => true
  | NetEv.callStart k :: NetEv.callEnd k' :: rest => (k == k') && sequentialB rest
  | _ => false

/-- The characters of the opening tag matched by `stripThinking`. -/
def openTag : List Char := ['<', 't', 'h', 'i', 'n', 'k', '>']

/-- The characters of the closing tag matched by `stripThinking`. -/
def closeTag : List Char := ['<', '/', 't', 'h', 'i', 'n', 'k', '>']

/-- Case-insensitive test of a pattern against the head of a list
(the regex `i` flag). -/
def matchesCI : List Char → List Char → Bool
  | [], _ => true
  | _ :: _, [] => false
  | p :: ps, c :: cs => (p.toLower == c.toLower) && matchesCI ps cs

/-- Scan for the nearest case-insensitive `</think>` and return the remainder
after it (the non-greedy `[\s\S]*?` stops at the first closing tag). -/
def findClose : List Char → Option (List Char)
  | [] => none
  | c :: rest =>
    if matchesCI closeTag (c :: rest) then some (rest.drop 7) else findClose rest

theorem findClose_length : ∀ l r, findClose l = some r → r.length ≤ l.length
  | [], _, h => by simp [findClose] at h
  | c :: rest, r, h => by
    by_cases hm : matchesCI closeTag (c :: rest)
    · simp only [findClose, hm, if_pos, Option.some.injEq] at h
      subst h
      calc (rest.drop 7).length ≤ rest.length := by
              simp
        _ ≤ (c :: rest).length := by simp
    · simp only [findClose, hm, if_neg, Bool.false_eq_true, not_false_iff] at h
      exact Nat.le_trans (findClose_length rest r h) (by simp)

/-- One left-to-right pass of the global replace of
`/<think>[\s\S]*?<\/think>/gi` by the empty string:
at each position, if `<think>` matches here and a `</think>` follows, the whole
match is dropped and scanning resumes after it; otherwise the character is
kept and scanning moves on by one. -/
def stripCore (l : List Char) : List Char :=
  match l with
  | [] => []
  | c :: rest =>
    if matchesCI openTag (c :: rest) then
      match h : findClose (rest.drop 6) with
      | some rest2 => stripCore rest2
      | none => c :: stripCore rest
    else c :: stripCore rest
termination_by l.length
decreasing_by
  · have h1 := findClose_length (rest.drop 6) rest2 h
    have h2 : (rest.drop 6).length ≤ rest.length := by simp
    simp only [List.length_cons]
    omega
  · simp
  · simp

/-- The function `stripThinking(text)` from App.jsx: delete the think blocks,
then trim. -/
def stripThinking (s : String) : String :=
  String.mk (jsTrim (stripCore s.data))

/-- The chat modal body: `chatMessages.slice(1).map(...)`, applying
`stripThinking` to the content of each rendered message. -/
def renderedChat (s : AppState) : List ChatMsg :=
  (s.chatMessages.drop 1).map fun m => { role := m.role, content := stripThinking m.content }

/-- Index of the first case-insensitive occurrence of a pattern. -/
def findIdxCI (pat : List Char) : List Char → Option Nat
  | [] => none
  | c :: rest =>
    if matchesCI pat (c :: rest) then some 0 else (findIdxCI pat rest).map (· + 1)

/-- The wording of the claim for the deletion pass: repeatedly locate the
first (case-insensitive) `<think>`, delete through the nearest following
`</think>`, and continue after the deleted block; a `<think>` with no
following `</think>` deletes nothing. -/
def removeThinkBlocks : List Char → List Char
  | [] => []
  | c :: rest =>
    match findIdxCI openTag (c :: rest) with
    | none => c :: rest
    | some i =>
      match findIdxCI closeTag ((c :: rest).drop (i + 7)) with
      | none => c :: rest
      | some j =>
        (c :: rest).take i ++ removeThinkBlocks ((c :: rest).drop (i + 7 + (j + 8)))
termination_by l => l.length
decreasing_by
  simp only [List.length_cons, List.length_drop]
  omega

/-- A base component state for concrete instantiations. -/
def baseState : AppState :=
  { searchQuery := "Delhi", newsData := [], summary := [], loading := false,
    chatOpen := false, chatTitle := "", chatMessages := [], chatInput := "",
    chatLoading := false }

/-- A response item carrying the sentinel threat string `"NaN"`. -/
def itemNaN : NewsItem :=
  { title := "a", link := "la", category := some "crime", threat := some "NaN" }

/-- A response item with a regular threat level. -/
def itemHigh : NewsItem :=
  { title := "b", link := "lb", category := some "crime", threat := some "HIGH" }

/-- A geocoding response with an empty feature list. -/
def geoEmpty : GeoResponse := { features := some [] }

/-- A state with a pending chat input. -/
def chatState : AppState := { baseState with chatInput := "hi" }

/-- A state holding the results of a previous successful fetch. -/
def prevState : AppState :=
  { baseState with newsData := [itemHigh], summary := [("crime", 1)] }

/-! ## Theorems -/

/-- C9: a run of `handleAnalyze` with a whitespace-only search query, and a
run of `handleSendChat` with a whitespace-only chat input, each return
immediately: no network request or other effect is emitted and every piece of
component state is returned unchanged. -/
theorem claim9_empty_input_noop :
    (∀ s geo cls, trimString s.searchQuery = "" → handleAnalyze s geo cls = (s, []))
    ∧ (∀ s gen, trimString s.chatInput = "" → handleSendChat s gen = (s, [])) := by
  constructor
  · intro s geo cls h
    simp [handleAnalyze, h]
  · intro s gen h
    simp [handleSendChat, h]

/-- C9 witness: concrete whitespace-only query and chat input. -/
theorem claim9_witness :
    handleAnalyze { baseState with searchQuery := "  " } none none
      = ({ baseState with searchQuery := "  " }, [])
    ∧ handleSendChat { baseState with chatInput := " " } none
      = ({ baseState with chatInput := " " }, []) :=
  ⟨claim9_empty_input_noop.1 _ none none (by decide),
   claim9_empty_input_noop.2 _ none (by decide)⟩

/-- C1 (amended): after a successful classification response, `newsData` holds
exactly the response items whose `threat` differs from the string `"NaN"`,
unchanged and in response order; items with `threat === "NaN"` are dropped. -/
theorem claim1_newsData_filtered (s : AppState) (g : GeoResponse)
    (news : List NewsItem) (h : trimString s.searchQuery ≠ "") :
    (handleAnalyze s (some g) (some news)).1.newsData = news.filter keepItem := by
  rcases hf : g.features with _ | (_ | ⟨f, rest⟩) <;> simp [handleAnalyze, h, hf]

/-- C1 witness: a concrete run keeps exactly the items not marked `"NaN"`. -/
theorem claim1_witness :
    (handleAnalyze baseState (some geoEmpty) (some [itemNaN, itemHigh])).1.newsData
      = [itemNaN, itemHigh].filter keepItem :=
  claim1_newsData_filtered baseState geoEmpty [itemNaN, itemHigh] (by decide)

/-- C1 counterexample: an item of the response (threat `"NaN"`) does not
appear in `newsData` after the run, refuting "every item of the response
appears in `newsData`". -/
theorem claim1_counterexample :
    itemNaN ∈ [itemNaN]
    ∧ itemNaN ∉ (handleAnalyze baseState (some geoEmpty) (some [itemNaN])).1.newsData := by
  decide

/-- C3 (amended): when the classification call fails, `newsData` and `summary`
end the run cleared to their reset values (empty) — `handleAnalyze` clears
both at the start of every run, so they do not retain the values of the most
recent successful run. -/
theorem claim3_cleared_on_failure (s : AppState) (g : GeoResponse)
    (h : trimString s.searchQuery ≠ "") :
    (handleAnalyze s (some g) none).1.newsData = []
    ∧ (handleAnalyze s (some g) none).1.summary = [] := by
  rcases hf : g.features with _ | (_ | ⟨f, rest⟩) <;>
    constructor <;> simp [handleAnalyze, h, hf]

/-- C3 witness: the amended claim at a concrete failing run. -/
theorem claim3_witness :
    (handleAnalyze prevState (some geoEmpty) none).1.newsData = []
    ∧ (handleAnalyze prevState (some geoEmpty) none).1.summary = [] :=
  claim3_cleared_on_failure prevState geoEmpty (by decide)

/-- C3 counterexample: a state holding a previous successful fetch runs into a
failing classification call; afterwards `newsData` is empty rather than the
previous value, refuting "state unchanged on error". -/
theorem claim3_counterexample :
    prevState.newsData ≠ []
    ∧ (handleAnalyze prevState (some geoEmpty) none).1.newsData = [] := by
  decide

theorem lookupCount_incr_self (acc : List (String × Nat)) (c : String) :
    lookupCount (incr acc c) c = lookupCount acc c + 1 := by
  induction acc with
  | nil => simp [incr, lookupCount]
  | cons kv rest ih =>
    obtain ⟨k, v⟩ := kv
    by_cases hk : k = c
    · subst hk
      simp [incr, lookupCount]
    · simp [incr, lookupCount, hk, ih]

theorem lookupCount_incr_other (acc : List (String × Nat)) (c d : String)
    (hne : d ≠ c) :
    lookupCount (incr acc c) d = lookupCount acc d := by
  induction acc with
  | nil => simp [incr, lookupCount, Ne.symm hne]
  | cons kv rest ih =>
    obtain ⟨k, v⟩ := kv
    by_cases hk : k = c
    · subst hk
      simp [incr, lookupCount, Ne.symm hne]
    · by_cases hd : k = d <;> simp [incr, lookupCount, hk, hd, hne, ih]

theorem sumCounts_incr (acc : List (String × Nat)) (c : String) :
    sumCounts (incr acc c) = sumCounts acc + 1 := by
  induction acc with
  | nil => simp [incr, sumCounts]
  | cons kv rest ih =>
    obtain ⟨k, v⟩ := kv
    by_cases hk : k = c
    · subst hk
      simp [incr, sumCounts]
      omega
    · simp [incr, sumCounts, hk] at ih ⊢
      omega

theorem lookupCount_fold (items : List NewsItem) :
    ∀ (acc : List (String × Nat)) (c : String),
      lookupCount (items.foldl (fun a it => incr a (catOf it)) acc) c
        = lookupCount acc c + items.countP (fun it => catOf it == c) := by
  induction items with
  | nil =>
    intro acc c
    simp
  | cons it rest ih =>
    intro acc c
    simp only [List.foldl_cons, List.countP_cons]
    rw [ih]
    by_cases hc : catOf it = c
    · subst hc
      rw [lookupCount_incr_self]
      simp
      omega
    · rw [lookupCount_incr_other _ _ _ (Ne.symm hc)]
      simp [hc]

theorem sumCounts_fold (items : List NewsItem) :
    ∀ acc : List (String × Nat),
      sumCounts (items.foldl (fun a it => incr a (catOf it)) acc)
        = sumCounts acc + items.length := by
  induction items with
  | nil =>
    intro acc
    simp
  | cons it rest ih =>
    intro acc
    simp only [List.foldl_cons, List.length_cons]
    rw [ih, sumCounts_incr]
    omega

/-- C4: after every successful fetch the summary is rebuilt from the retained
items of that fetch: for every category label `c` it maps `c` to the number of
retained items whose category (with a missing or falsy category normalised to
`"unknown"`) equals `c`, and its counts sum to the number of retained items. -/
theorem claim4_summary_counts (s : AppState) (g : GeoResponse)
    (news : List NewsItem) (c : String) (h : trimString s.searchQuery ≠ "") :
    lookupCount (handleAnalyze s (some g) (some news)).1.summary c
      = (news.filter keepItem).countP (fun it => catOf it == c)
    ∧ sumCounts (handleAnalyze s (some g) (some news)).1.summary
      = (news.filter keepItem).length := by
  have hs : (handleAnalyze s (some g) (some news)).1.summary
      = buildSummary (news.filter keepItem) := by
    rcases hf : g.features with _ | (_ | ⟨f, rest⟩) <;> simp [handleAnalyze, h, hf]
  rw [hs, buildSummary]
  constructor
  · rw [lookupCount_fold]
    simp [lookupCount]
  · rw [sumCounts_fold]
    simp [sumCounts]

/-- C4 witness: concrete category counts on a concrete response. -/
theorem claim4_witness :
    lookupCount (handleAnalyze baseState (some geoEmpty)
        (some [itemNaN, itemHigh])).1.summary "crime"
      = ([itemNaN, itemHigh].filter keepItem).countP (fun it => catOf it == "crime")
    ∧ sumCounts (handleAnalyze baseState (some geoEmpty)
        (some [itemNaN, itemHigh])).1.summary
      = ([itemNaN, itemHigh].filter keepItem).length :=
  claim4_summary_counts baseState geoEmpty [itemNaN, itemHigh] "crime" (by decide)

/-- C5: an Enter keypress with a query whose trimmed value is non-empty issues
the geocoding request for that query and, whenever the response holds at least
one feature, pans the map to the center of the first feature; with an empty or
whitespace-only query the handler emits nothing at all. -/
theorem claim5_search_geocode_pan :
    (∀ q geo, trimString q ≠ "" →
      Ev.geoRequest q ∈ handleSearch "Enter" q geo
      ∧ ∀ g f rest, geo = some g → g.features = some (f :: rest) →
          Ev.flyTo f.center.1 f.center.2 10 ∈ handleSearch "Enter" q geo)
    ∧ (∀ k q geo, trimString q = "" → handleSearch k q geo = []) := by
  constructor
  · intro q geo h
    constructor
    · cases geo with
      | none => simp [handleSearch, h]
      | some g => rcases hf : g.features with _ | (_ | ⟨f, rest⟩) <;>
          simp [handleSearch, h, hf]
    · intro g f rest hg hf
      subst hg
      simp [handleSearch, h, hf]
  · intro k q geo h
    simp [handleSearch, h]

/-- C5 witness: a concrete Enter keypress geocodes and pans; a concrete blank
query emits nothing. -/
theorem claim5_witness :
    (Ev.geoRequest "Paris" ∈
        handleSearch "Enter" "Paris" (some { features := some [{ center := (2, 48) }] })
      ∧ Ev.flyTo 2 48 10 ∈
        handleSearch "Enter" "Paris" (some { features := some [{ center := (2, 48) }] }))
    ∧ handleSearch "Enter" " " none = [] := by
  constructor
  · constructor
    · exact (claim5_search_geocode_pan.1 "Paris" _ (by decide)).1
    · exact (claim5_search_geocode_pan.1 "Paris" _ (by decide)).2 _ _ [] rfl rfl
  · exact claim5_search_geocode_pan.2 "Enter" " " none (by decide)

/-- C6: every request `handleSendChat` posts has `stream: false` and a prompt
built from the entire ordered transcript, each message prefixed with `User`
for user messages and `AI` otherwise, ending with a trailing `AI:` line; and
exactly one AI message is appended to the transcript for the response. -/
theorem claim6_chat_request (s : AppState) (r : String)
    (h : trimString s.chatInput ≠ "") :
    (handleSendChat s (some r)).2
      = [Ev.appendUser (userMsgOf s),
         Ev.genRequest
           { model := "deepseek-r1:8b"
             prompt := String.intercalate "\n"
                 ((s.chatMessages ++ [userMsgOf s]).map roleLine) ++ "\nAI:"
             stream := false },
         Ev.genDone, Ev.appendAi { role := "ai", content := trimString r }]
    ∧ (handleSendChat s (some r)).1.chatMessages
      = s.chatMessages ++ [userMsgOf s, { role := "ai", content := trimString r }] := by
  constructor <;> simp [handleSendChat, h, genReqOf, mkPrompt]

/-- C6 witness: the concrete request and transcript of a concrete run. -/
theorem claim6_witness :
    (handleSendChat chatState (some " ok ")).2
      = [Ev.appendUser (userMsgOf chatState),
         Ev.genRequest
           { model := "deepseek-r1:8b"
             prompt := String.intercalate "\n"
                 ((chatState.chatMessages ++ [userMsgOf chatState]).map roleLine) ++ "\nAI:"
             stream := false },
         Ev.genDone, Ev.appendAi { role := "ai", content := trimString " ok " }]
    ∧ (handleSendChat chatState (some " ok ")).1.chatMessages
      = chatState.chatMessages
          ++ [userMsgOf chatState, { role := "ai", content := trimString " ok " }] :=
  claim6_chat_request chatState " ok " (by decide)

/-- C2 counterexample: a failing generative call in `handleSendChat` produces
no console log at all (and the handler aborts), refuting "no operation fails
without at least a console log". -/
theorem claim2_counterexample :
    Ev.genFail ∈ (handleSendChat chatState none).2
    ∧ Ev.consoleError ∉ (handleSendChat chatState none).2 := by
  decide

/-- C2 (amended): only the failure of the classification call is handled, by a
console log and through no other channel — `handleAnalyze` never emits an
alert; failures of the geocoding call (in either handler) and of the
generative call are unhandled — they abort the handler without any console
log and without any user-facing report (no alert is emitted on the failure
path of `handleSearch`, nor ever by `handleSendChat`). -/
theorem claim2_logging :
    (∀ s g, trimString s.searchQuery ≠ "" →
        Ev.consoleError ∈ (handleAnalyze s (some g) none).2)
    ∧ (∀ s geo cls m, Ev.alertBox m ∉ (handleAnalyze s geo cls).2)
    ∧ (∀ s cls, Ev.consoleError ∉ (handleAnalyze s none cls).2)
    ∧ (∀ s gen, Ev.consoleError ∉ (handleSendChat s gen).2)
    ∧ (∀ s gen m, Ev.alertBox m ∉ (handleSendChat s gen).2)
    ∧ (∀ k q geo, Ev.consoleError ∉ handleSearch k q geo)
    ∧ (∀ k q m, Ev.alertBox m ∉ handleSearch k q none) := by
  refine ⟨?_, ?_, ?_, ?_, ?_, ?_, ?_⟩
  · intro s g h
    rcases hf : g.features with _ | (_ | ⟨f, rest⟩) <;> simp [handleAnalyze, h, hf]
  · intro s geo cls m
    by_cases h : trimString s.searchQuery = ""
    · simp [handleAnalyze, h]
    · cases geo with
      | none => simp [handleAnalyze, h]
      | some g => rcases hf : g.features with _ | (_ | ⟨f, rest⟩) <;> cases cls <;>
          simp [handleAnalyze, h, hf]
  · intro s cls
    by_cases h : trimString s.searchQuery = "" <;> simp [handleAnalyze, h]
  · intro s gen
    by_cases h : trimString s.chatInput = "" <;> cases gen <;>
      simp [handleSendChat, h]
  · intro s gen m
    by_cases h : trimString s.chatInput = "" <;> cases gen <;>
      simp [handleSendChat, h]
  · intro k q geo
    by_cases h : k = "Enter" ∧ trimString q ≠ ""
    · cases geo with
      | none => simp [handleSearch, h]
      | some g => rcases hf : g.features with _ | (_ | ⟨f, rest⟩) <;>
          simp [handleSearch, h, hf]
    · simp [handleSearch, h]
  · intro k q m
    by_cases h : k = "Enter" ∧ trimString q ≠ "" <;> simp [handleSearch, h]

/-- C2 witness: the classification failure of a concrete run is logged. -/
theorem claim2_witness :
    Ev.consoleError ∈ (handleAnalyze baseState (some geoEmpty) none).2 :=
  claim2_logging.1 baseState geoEmpty (by decide)

/-- C7: the calls of the handlers are sequential — every classification request is
preceded in the trace by the completed geocoding call; the user message is
appended before the generative request is issued and the AI message only after
that request completes (never on failure); and in every run of either handler
the network sub-trace is a sequence of matching start/finish pairs, so no two
outbound calls of one handler are in flight at once. -/
theorem claim7_sequential :
    (∀ s geo cls l d, Ev.clsRequest l d ∈ (handleAnalyze s geo cls).2 →
        List.Sublist [Ev.geoDone, Ev.clsRequest l d] (handleAnalyze s geo cls).2)
    ∧ (∀ s gen, trimString s.chatInput ≠ "" →
        List.Sublist [Ev.appendUser (userMsgOf s), Ev.genRequest (genReqOf s)]
          (handleSendChat s gen).2)
    ∧ (∀ s r, trimString s.chatInput ≠ "" →
        List.Sublist [Ev.genDone, Ev.appendAi { role := "ai", content := trimString r }]
          (handleSendChat s (some r)).2)
    ∧ (∀ s m, Ev.appendAi m ∉ (handleSendChat s none).2)
    ∧ (∀ s geo cls, sequentialB (netEvs (handleAnalyze s geo cls).2) = true)
    ∧ (∀ s gen, sequentialB (netEvs (handleSendChat s gen).2) = true) := by
  refine ⟨?_, ?_, ?_, ?_, ?_, ?_⟩
  · intro s geo cls l d hmem
    by_cases h : trimString s.searchQuery = ""
    · simp [handleAnalyze, h] at hmem
    · cases geo with
      | none => simp [handleAnalyze, h] at hmem
      | some g =>
        rcases hf : g.features with _ | (_ | ⟨f, rest⟩) <;> cases cls <;>
          · simp [handleAnalyze, h, hf] at hmem
            obtain ⟨hl, hd⟩ := hmem
            subst hl
            subst hd
            simp only [handleAnalyze, h, hf, if_neg]
            repeat' first
              | exact List.nil_sublist _
              | apply List.Sublist.cons₂
              | apply List.Sublist.cons
  · intro s gen h
    cases gen <;> simp only [handleSendChat, h, if_neg] <;>
      repeat' first
        | exact List.nil_sublist _
        | apply List.Sublist.cons₂
        | apply List.Sublist.cons
  · intro s r h
    simp only [handleSendChat, h, if_neg]
    repeat' first
      | exact List.nil_sublist _
      | apply List.Sublist.cons₂
      | apply List.Sublist.cons
  · intro s m
    by_cases h : trimString s.chatInput = "" <;> simp [handleSendChat, h]
  · intro s geo cls
    by_cases h : trimString s.searchQuery = ""
    · simp [handleAnalyze, h, netEvs, sequentialB]
    · cases geo with
      | none => simp [handleAnalyze, h, netEvs, evNet, sequentialB]
      | some g =>
        rcases hf : g.features with _ | (_ | ⟨f, rest⟩) <;> cases cls <;>
          simp [handleAnalyze, h, hf, netEvs, evNet, sequentialB]
  · intro s gen
    by_cases h : trimString s.chatInput = "" <;> cases gen <;>
      simp [handleSendChat, h, netEvs, evNet, sequentialB]

/-- C7 witness: ordering facts of the concrete runs. -/
theorem claim7_witness :
    List.Sublist [Ev.geoDone, Ev.clsRequest (trimString baseState.searchQuery) 2]
      (handleAnalyze baseState (some geoEmpty) (some [])).2
    ∧ List.Sublist [Ev.appendUser (userMsgOf chatState), Ev.genRequest (genReqOf chatState)]
        (handleSendChat chatState none).2 :=
  ⟨claim7_sequential.1 baseState (some geoEmpty) (some [])
      (trimString baseState.searchQuery) 2 (by decide),
   claim7_sequential.2.1 chatState none (by decide)⟩

/-- C8: the news panel renders a copy of `newsData` ordered by threat rank —
HIGH before MEDIUM before LOW, any other threat value last — and that copy is
a permutation of `newsData`, which rendering leaves unchanged. -/
theorem claim8_render_sorted (s : AppState) :
    (renderNewsOrder s).Perm s.newsData
    ∧ (renderNewsOrder s).Pairwise
        (fun a b => threatOrder a.threat ≤ threatOrder b.threat) := by
  constructor
  · exact List.mergeSort_perm s.newsData _
  · have h : (s.newsData.mergeSort
        (fun a b => decide (threatOrder a.threat ≤ threatOrder b.threat))).Pairwise
        (fun a b => decide (threatOrder a.threat ≤ threatOrder b.threat) = true) := by
      apply List.sorted_mergeSort
      · intro a b c hab hbc
        simp only [decide_eq_true_eq] at hab hbc ⊢
        omega
      · intro a b
        simp only [Bool.or_eq_true, decide_eq_true_eq]
        omega
    exact h.imp fun hab => by simpa using hab

theorem stripCore_nil : stripCore [] = [] := by
  rw [stripCore]

theorem stripCore_cons_open_some {c : Char} {rest rest2 : List Char}
    (hm : matchesCI openTag (c :: rest) = true)
    (hf : findClose (rest.drop 6) = some rest2) :
    stripCore (c :: rest) = stripCore rest2 := by
  rw [stripCore, if_pos hm]
  split
  · next x hx =>
    rw [hf] at hx
    cases hx
    rfl
  · next hx =>
    rw [hf] at hx
    cases hx

theorem stripCore_cons_open_none {c : Char} {rest : List Char}
    (hm : matchesCI openTag (c :: rest) = true)
    (hf : findClose (rest.drop 6) = none) :
    stripCore (c :: rest) = c :: stripCore rest := by
  rw [stripCore, if_pos hm]
  split
  · next x hx =>
    rw [hf] at hx
    cases hx
  · rfl

theorem stripCore_cons_not_open {c : Char} {rest : List Char}
    (hm : ¬ matchesCI openTag (c :: rest) = true) :
    stripCore (c :: rest) = c :: stripCore rest := by
  rw [stripCore, if_neg hm]

theorem removeThinkBlocks_nil : removeThinkBlocks [] = [] := by
  rw [removeThinkBlocks]

theorem removeThinkBlocks_cons (c : Char) (rest : List Char) :
    removeThinkBlocks (c :: rest) =
      match findIdxCI openTag (c :: rest) with
      | none => c :: rest
      | some i =>
        match findIdxCI closeTag ((c :: rest).drop (i + 7)) with
        | none => c :: rest
        | some j =>
          (c :: rest).take i
            ++ removeThinkBlocks ((c :: rest).drop (i + 7 + (j + 8))) := by
  rw [removeThinkBlocks]

theorem findIdxCI_cons_none {pat : List Char} {c : Char} {rest : List Char}
    (h : findIdxCI pat (c :: rest) = none) : findIdxCI pat rest = none := by
  by_cases hm : matchesCI pat (c :: rest)
  · simp [findIdxCI, hm] at h
  · simp [findIdxCI, hm] at h
    exact h

theorem findIdxCI_drop_none (pat : List Char) :
    ∀ (l : List Char) (k : Nat),
      findIdxCI pat l = none → findIdxCI pat (l.drop k) = none := by
  intro l
  induction l with
  | nil =>
    intro k h
    simpa using h
  | cons c rest ih =>
    intro k h
    cases k with
    | zero => simpa using h
    | succ k' =>
      simp only [List.drop_succ_cons]
      exact ih k' (findIdxCI_cons_none h)

theorem findClose_eq_findIdxCI :
    ∀ l : List Char,
      findClose l = (findIdxCI closeTag l).map (fun j => l.drop (j + 8)) := by
  intro l
  induction l with
  | nil => simp [findClose, findIdxCI]
  | cons c rest ih =>
    by_cases hm : matchesCI closeTag (c :: rest)
    · simp [findClose, findIdxCI, hm]
    · rw [findClose, if_neg hm, ih, findIdxCI, if_neg hm, Option.map_map]
      cases hfi : findIdxCI closeTag rest with
      | none => rfl
      | some j =>
        simp only [Option.map_some', Function.comp_apply, Option.some.injEq]
        rw [show j + 1 + 8 = (j + 8) + 1 from by omega, List.drop_succ_cons]

theorem removeThinkBlocks_eq (l : List Char) :
    removeThinkBlocks l =
      match findIdxCI openTag l with
      | none => l
      | some i =>
        match findIdxCI closeTag (l.drop (i + 7)) with
        | none => l
        | some j =>
          l.take i ++ removeThinkBlocks (l.drop (i + 7 + (j + 8))) := by
  cases l with
  | nil =>
    rw [removeThinkBlocks_nil]
    simp [findIdxCI]
  | cons c rest => rw [removeThinkBlocks_cons]

theorem stripCore_of_no_close :
    ∀ l : List Char, findIdxCI closeTag (l.drop 6) = none → stripCore l = l := by
  intro l
  induction l with
  | nil =>
    intro _
    exact stripCore_nil
  | cons c rest ih =>
    intro h
    have hd : (c :: rest).drop 6 = rest.drop 5 := rfl
    have h5 : findIdxCI closeTag (rest.drop 5) = none := by rwa [hd] at h
    have h6 : findIdxCI closeTag (rest.drop 6) = none := by
      have h61 := findIdxCI_drop_none closeTag (rest.drop 5) 1 h5
      rw [List.drop_drop] at h61
      simpa using h61
    have hfc : findClose (rest.drop 6) = none := by
      rw [findClose_eq_findIdxCI, h6]
      rfl
    by_cases hm : matchesCI openTag (c :: rest)
    · rw [stripCore_cons_open_none hm hfc, ih h6]
    · rw [stripCore_cons_not_open hm, ih h6]

theorem stripCore_eq_removeThinkBlocks_aux :
    ∀ (n : Nat) (l : List Char), l.length ≤ n →
      stripCore l = removeThinkBlocks l := by
  intro n
  induction n with
  | zero =>
    intro l hl
    have hnil : l = [] := List.eq_nil_of_length_eq_zero (Nat.le_zero.mp hl)
    subst hnil
    rw [stripCore_nil, removeThinkBlocks_nil]
  | succ n ih =>
    intro l hl
    cases l with
    | nil => rw [stripCore_nil, removeThinkBlocks_nil]
    | cons c rest =>
      have hrest : rest.length ≤ n := by
        simp only [List.length_cons] at hl
        omega
      by_cases hm : matchesCI openTag (c :: rest)
      · have ho : findIdxCI openTag (c :: rest) = some 0 := by
          simp [findIdxCI, hm]
        have hd7 : (c :: rest).drop (0 + 7) = rest.drop 6 := rfl
        cases hfc : findClose (rest.drop 6) with
        | some rest2 =>
          rw [stripCore_cons_open_some hm hfc]
          have hmap := findClose_eq_findIdxCI (rest.drop 6)
          rw [hfc] at hmap
          cases hj : findIdxCI closeTag (rest.drop 6) with
          | none =>
            rw [hj] at hmap
            simp at hmap
          | some j =>
            rw [hj] at hmap
            simp only [Option.map_some', Option.some.injEq] at hmap
            have hr2 : rest2 = rest.drop (j + 14) := by
              rw [hmap, List.drop_drop]
              congr 1
              omega
            have hcd : (c :: rest).drop (0 + 7 + (j + 8)) = rest.drop (j + 14) := by
              rw [show 0 + 7 + (j + 8) = (j + 14) + 1 from by omega,
                List.drop_succ_cons]
            have hlen : rest2.length ≤ n := by
              rw [hr2]
              exact Nat.le_trans (by simp) hrest
            rw [removeThinkBlocks_eq]
            simp only [ho, hd7, hj, hcd, List.take_zero, List.nil_append]
            rw [ih rest2 hlen, hr2]
        | none =>
          rw [stripCore_cons_open_none hm hfc]
          have hj : findIdxCI closeTag (rest.drop 6) = none := by
            have hmap := findClose_eq_findIdxCI (rest.drop 6)
            rw [hfc] at hmap
            cases hj' : findIdxCI closeTag (rest.drop 6) with
            | none => rfl
            | some j =>
              rw [hj'] at hmap
              simp at hmap
          rw [stripCore_of_no_close rest hj, removeThinkBlocks_eq]
          simp only [ho, hd7, hj]
      · rw [stripCore_cons_not_open hm, ih rest hrest]
        cases ho : findIdxCI openTag rest with
        | none =>
          have ho' : findIdxCI openTag (c :: rest) = none := by
            simp [findIdxCI, hm, ho]
          have hrr : removeThinkBlocks rest = rest := by
            rw [removeThinkBlocks_eq]
            simp only [ho]
          rw [hrr, removeThinkBlocks_eq]
          simp only [ho']
        | some i =>
          have ho' : findIdxCI openTag (c :: rest) = some (i + 1) := by
            simp [findIdxCI, hm, ho]
          have hdi : (c :: rest).drop (i + 1 + 7) = rest.drop (i + 7) := by
            rw [show i + 1 + 7 = (i + 7) + 1 from by omega, List.drop_succ_cons]
          cases hcjs : findIdxCI closeTag (rest.drop (i + 7)) with
          | none =>
            have hrr : removeThinkBlocks rest = rest := by
              rw [removeThinkBlocks_eq]
              simp only [ho, hcjs]
            rw [hrr]
            conv_rhs => rw [removeThinkBlocks_eq]
            simp only [ho', hdi, hcjs]
          | some j =>
            conv_lhs => rw [removeThinkBlocks_eq rest]
            conv_rhs => rw [removeThinkBlocks_eq]
            simp only [ho, ho', hdi, hcjs, List.take_succ_cons]
            rw [show i + 1 + 7 + (j + 8) = (i + 7 + (j + 8)) + 1 from by omega,
              List.drop_succ_cons, List.cons_append]

theorem stripCore_eq_removeThinkBlocks (l : List Char) :
    stripCore l = removeThinkBlocks l :=
  stripCore_eq_removeThinkBlocks_aux l.length l (Nat.le_refl _)

/-- C10: `stripThinking` deletes — case-insensitively, spanning newlines, and
non-greedily — every substring running from a `<think>` through the nearest
following `</think>`, then trims leading and trailing whitespace; and the chat
modal applies it to the content of every message it renders. -/
theorem claim10_stripThinking :
    (∀ s : String, stripThinking s = String.mk (jsTrim (removeThinkBlocks s.data)))
    ∧ (∀ st : AppState,
        renderedChat st = (st.chatMessages.drop 1).map
          fun m => { role := m.role, content := stripThinking m.content }) := by
  constructor
  · intro s
    rw [stripThinking, stripCore_eq_removeThinkBlocks]
  · intro st
    rfl

end SafeMap
